import Mathlib

/-!
Verification of the streaming voice-activity-detection (VAD) service:
a shallow embedding of `src/server.py` (VADProcessor, VADServicer) and of
the frame chunker of `src/client.py` (FileVADClient.read_wav_file), with
theorems about the session state machine, audio accumulation, the wire
event stream, registry lifecycle and the chunker.

Bytes are modelled as `Nat` (values taken mod 256 where decoded), audio
chunks as `List Nat`, probabilities as `ℚ`.  The external Silero model
call `model(audio_tensor, SAMPLE_RATE).item()` is an opaque collaborator:
it is a parameter `scorer : List Int → Option ℚ`, where `none` models the
call raising an exception (caught by `process_chunk`'s `except` clause).
-/

namespace VAD

/-- `SAMPLE_RATE = 16000` from both source files. -/
def SAMPLE_RATE : Nat := 16000

/-- `VAD_CHUNK_SIZE = 512`: Silero VAD requires exactly 512 samples per
chunk at 16 kHz. -/
def VAD_CHUNK_SIZE : Nat := 512

/-- Decode one little-endian signed 16-bit sample from two bytes, as
`np.frombuffer(audio_chunk, np.int16)` does for each byte pair. -/
def decodeSample (lo hi : Nat) : Int :=
  let v : Nat := lo % 256 + 256 * (hi % 256)
  if v < 32768 then (v : Int) else (v : Int) - 65536

/-- `np.frombuffer(audio_chunk, np.int16)`: decodes consecutive byte pairs;
raises (here: `none`) when the byte count is odd. -/
def bytesToInt16 : List Nat → Option (List Int)
  | [] => some []
  | [_] => none
  | lo :: hi :: rest => (bytesToInt16 rest).map (fun t => decodeSample lo hi :: t)

/-- The pad-or-truncate step of `process_chunk` (server.py lines 71-78):
if the sample count is not `VAD_CHUNK_SIZE`, truncate when longer, else
zero-pad to exactly `VAD_CHUNK_SIZE`. -/
def fitToChunkSize (audio_int16 : List Int) : List Int :=
  if audio_int16.length ≠ VAD_CHUNK_SIZE then
    if audio_int16.length > VAD_CHUNK_SIZE then
      audio_int16.take VAD_CHUNK_SIZE
    else
      audio_int16 ++ List.replicate (VAD_CHUNK_SIZE - audio_int16.length) 0
  else audio_int16

/-- The opaque speech scorer: `none` models the model call raising. -/
abbrev Scorer := List Int → Option ℚ

/-- Per-client session state of `VADProcessor.__init__`. -/
structure VADProcessor where
  speech_detected : Bool
  accumulated_audio : List (List Nat)
deriving DecidableEq, Repr

/-- The state built by `VADProcessor()`. -/
def VADProcessor.init : VADProcessor :=
  { speech_detected := false, accumulated_audio := [] }

/-- `VADProcessor.process_chunk`: decode, fit to 512 samples, score, append
the raw chunk to the accumulator, then apply the threshold state machine.
Any exception (decode failure or scorer failure) is caught and answered
with `"continue"`, leaving the state untouched. -/
def process_chunk (scorer : Scorer) (st : VADProcessor) (audio_chunk : List Nat) :
    VADProcessor × String :=
  match bytesToInt16 audio_chunk with
  | none => (st, "continue")
  | some audio_int16 =>
    match scorer (fitToChunkSize audio_int16) with
    | none => (st, "continue")
    | some speech_prob =>
      if decide (speech_prob > mkRat 7 10) && !st.speech_detected then
        ({ speech_detected := true,
           accumulated_audio := st.accumulated_audio ++ [audio_chunk] }, "start")
      else if !decide (speech_prob > mkRat 7 10) && st.speech_detected then
        ({ speech_detected := false,
           accumulated_audio := st.accumulated_audio ++ [audio_chunk] }, "end")
      else
        ({ st with accumulated_audio := st.accumulated_audio ++ [audio_chunk] },
          "continue")

/-- `VADProcessor.get_accumulated_audio`: returns the concatenation of the
accumulated chunks and clears the buffer. -/
def get_accumulated_audio (st : VADProcessor) : VADProcessor × List Nat :=
  ({ st with accumulated_audio := [] }, st.accumulated_audio.flatten)

/-- `VADProcessor.reset`: clear the speaking flag and the accumulator. -/
def VADProcessor.reset (_st : VADProcessor) : VADProcessor :=
  { speech_detected := false, accumulated_audio := [] }

/-- The outcome of `process_chunk` on a chunk, seen through the scorer
boundary: `none` exactly when the error path (`except` clause) is taken. -/
def scoreOf (scorer : Scorer) (audio_chunk : List Nat) : Option ℚ :=
  (bytesToInt16 audio_chunk).bind (fun s => scorer (fitToChunkSize s))

/-- One wire message of the response stream (`vad_pb2.VADResponse`). -/
structure VADResponse where
  event : String
  message : String
deriving DecidableEq, Repr

/-- The free-text message of an `end` response (server.py line 160). -/
def endMessage (n : Nat) : String :=
  "Speech ended, " ++ toString n ++ " bytes processed for STT"

/-- The request loop of `VADServicer.ProcessAudio` for one session: feed
each chunk to `process_chunk`; on `"end"` flush the accumulator and yield
an `end` response, on `"start"` yield a `start` response, on anything else
yield nothing. -/
def processFrames (scorer : Scorer) :
    VADProcessor → List (List Nat) → VADProcessor × List VADResponse
  | proc, [] => (proc, [])
  | proc, chunk :: rest =>
    let r := process_chunk scorer proc chunk
    if r.2 = "end" then
      let fl := get_accumulated_audio r.1
      let out := processFrames scorer fl.1 rest
      (out.1, { event := "end", message := endMessage fl.2.length } :: out.2)
    else if r.2 = "start" then
      let out := processFrames scorer r.1 rest
      (out.1, { event := "start", message := "Speech detected" } :: out.2)
    else
      processFrames scorer r.1 rest

/-- Lookup in the `client_processors` dict, keys compared by equality. -/
def lookupEntry : List (String × VADProcessor) → String → Option VADProcessor
  | [], _ => none
  | (k0, v0) :: rest, k => if k0 = k then some v0 else lookupEntry rest k

/-- Dict assignment `d[k] = v`: replace the entry when the key is present,
append it otherwise. -/
def setEntry : List (String × VADProcessor) → String → VADProcessor →
    List (String × VADProcessor)
  | [], k, v => [(k, v)]
  | (k0, v0) :: rest, k, v =>
    if k0 = k then (k, v) :: rest else (k0, v0) :: setEntry rest k v

/-- `VADServicer.__init__`: the registry of per-client processors. -/
structure VADServicer where
  client_processors : List (String × VADProcessor)
deriving DecidableEq, Repr

/-- `VADServicer.ProcessAudio` for one stream of `client_id`: create the
processor when absent, run the request loop, and in the `finally` clause
reset the client's processor (the entry itself is not deleted). -/
def ProcessAudio (scorer : Scorer) (sv : VADServicer) (client_id : String)
    (request_iterator : List (List Nat)) : VADServicer × List VADResponse :=
  let procs :=
    if (lookupEntry sv.client_processors client_id).isSome then sv.client_processors
    else setEntry sv.client_processors client_id VADProcessor.init
  let processor := (lookupEntry procs client_id).getD VADProcessor.init
  let out := processFrames scorer processor request_iterator
  let procs2 :=
    if (lookupEntry procs client_id).isSome then
      setEntry procs client_id out.1.reset
    else procs
  ({ client_processors := procs2 }, out.2)

/-- `VADServicer.ResetVAD`: reset the client's processor when present, and
answer `success := true` unconditionally. -/
def ResetVAD (sv : VADServicer) (client_id : String) : VADServicer × Bool :=
  match lookupEntry sv.client_processors client_id with
  | some p =>
    ({ client_processors := setEntry sv.client_processors client_id p.reset }, true)
  | none => (sv, true)

/-- `bytes_per_chunk = VAD_CHUNK_SIZE * sampwidth` with 2-byte samples. -/
def bytes_per_chunk : Nat := VAD_CHUNK_SIZE * 2

/-- `FileVADClient.read_wav_file` on a finite byte source: repeatedly read
up to `bytes_per_chunk` bytes; a full read is yielded unchanged, a short
non-empty read is zero-padded to `bytes_per_chunk` and yielded, an empty
read ends the sequence without being yielded. -/
def read_wav_file (data : List Nat) : List (List Nat) :=
  if h : data = [] then []
  else if (data.take bytes_per_chunk).length = bytes_per_chunk then
    data.take bytes_per_chunk :: read_wav_file (data.drop bytes_per_chunk)
  else
    (data.take bytes_per_chunk
        ++ List.replicate (bytes_per_chunk - (data.take bytes_per_chunk).length) 0)
      :: read_wav_file (data.drop bytes_per_chunk)
termination_by data.length
decreasing_by
  all_goals
    simp only [List.length_drop]
    have h0 : 0 < data.length := List.length_pos.mpr h
    simp only [bytes_per_chunk, VAD_CHUNK_SIZE]
    omega

/-- Scripted per-frame probabilities of the spec's 10-frame scenario,
keyed by the first decoded sample of the frame. -/
def scriptProb : Int → ℚ
  | 1 => mkRat 1 10
  | 2 => mkRat 1 10
  | 3 => mkRat 9 10
  | 4 => mkRat 9 10
  | 5 => mkRat 9 10
  | 6 => mkRat 2 10
  | 7 => mkRat 2 10
  | 8 => mkRat 9 10
  | 9 => mkRat 1 10
  | 10 => mkRat 1 10
  | _ => 0

/-- A stub scorer returning the scripted probability of the frame's first
sample, as the spec's deterministic test scorer. -/
def scriptScorer : Scorer := fun samples =>
  match samples with
  | v :: _ => some (scriptProb v)
  | [] => none

/-- The ten scenario frames: frame `i` (1-based) is the two-byte chunk
`[i, 0]`, decoding to the single sample `i`. -/
def scenarioChunks : List (List Nat) := (List.range 10).map (fun i => [i + 1, 0])

/-- The per-frame statuses computed by the request loop, including the
`"continue"` ones that are never transmitted; the state threads exactly as
in `processFrames` (on `"end"` the accumulator is flushed). -/
def statusesOf (scorer : Scorer) : VADProcessor → List (List Nat) → List String
  | _, [] => []
  | st, chunk :: rest =>
    let r := process_chunk scorer st chunk
    let st2 := if r.2 = "end" then (get_accumulated_audio r.1).1 else r.1
    r.2 :: statusesOf scorer st2 rest

/-- Whether a status is transmitted on the wire (server.py yields only for
`"start"` and `"end"`). -/
def isWireEvent (s : String) : Bool := s == "start" || s == "end"

/-- A stub scorer that always reports high speech probability. -/
def scorerHigh : Scorer := fun _ => some (mkRat 9 10)

/-- A stub scorer whose model call always raises. -/
def scorerNone : Scorer := fun _ => none

/-- A registry holding one mid-speech session for the client `"c"`. -/
def servicerBusy : VADServicer :=
  { client_processors := [("c", { speech_detected := true, accumulated_audio := [[1, 0]] })] }

/-- A registry that has never seen any client. -/
def servicerEmpty : VADServicer := { client_processors := [] }

/- Registry lemmas shared by the lifecycle theorems. -/

lemma lookupEntry_setEntry_self (l : List (String × VADProcessor)) (k : String)
    (v : VADProcessor) : lookupEntry (setEntry l k v) k = some v := by
  induction l with
  | nil => simp [setEntry, lookupEntry]
  | cons hd tl ih =>
    obtain ⟨k0, v0⟩ := hd
    by_cases h : k0 = k
    · simp [setEntry, h, lookupEntry]
    · simp [setEntry, h, lookupEntry, ih]

lemma setEntry_setEntry (l : List (String × VADProcessor)) (k : String)
    (v w : VADProcessor) : setEntry (setEntry l k v) k w = setEntry l k w := by
  induction l with
  | nil => simp [setEntry]
  | cons hd tl ih =>
    obtain ⟨k0, v0⟩ := hd
    by_cases h : k0 = k
    · simp [setEntry, h]
    · simp [setEntry, h, ih]

lemma reset_eq_init (st : VADProcessor) : st.reset = VADProcessor.init := rfl

/- Lemmas about the client-side chunker. -/

lemma read_wav_file_nil : read_wav_file [] = [] := by
  rw [read_wav_file]
  simp

lemma bytes_per_chunk_eq : bytes_per_chunk = 1024 := rfl

lemma read_wav_file_spec : ∀ (n : Nat) (data : List Nat), data.length ≤ n →
    (∀ c ∈ read_wav_file data, c.length = bytes_per_chunk) ∧
    (data.length % bytes_per_chunk = 0 → (read_wav_file data).flatten = data) ∧
    (data.length % bytes_per_chunk ≠ 0 →
      (read_wav_file data).flatten
        = data ++ List.replicate (bytes_per_chunk - data.length % bytes_per_chunk) 0) ∧
    (∀ i : Nat, i + 1 < (read_wav_file data).length →
      (read_wav_file data)[i]?
        = some ((data.drop (bytes_per_chunk * i)).take bytes_per_chunk) ∧
      bytes_per_chunk * (i + 1) ≤ data.length) ∧
    ((read_wav_file data).length
      = (data.length + bytes_per_chunk - 1) / bytes_per_chunk) := by
  intro n
  induction n with
  | zero =>
    intro data hle
    have hd : data = [] := List.eq_nil_of_length_eq_zero (Nat.le_zero.mp hle)
    subst hd
    refine ⟨?_, ?_, ?_, ?_, ?_⟩
    · intro c hc
      rw [read_wav_file_nil] at hc
      cases hc
    · intro _
      rw [read_wav_file_nil]
      rfl
    · intro hm
      exact absurd rfl hm
    · intro i hi
      rw [read_wav_file_nil] at hi
      simp at hi
    · rw [read_wav_file_nil]
      rfl
  | succ n ih =>
    intro data hle
    by_cases hd : data = []
    · subst hd
      refine ⟨?_, ?_, ?_, ?_, ?_⟩
      · intro c hc
        rw [read_wav_file_nil] at hc
        cases hc
      · intro _
        rw [read_wav_file_nil]
        rfl
      · intro hm
        exact absurd rfl hm
      · intro i hi
        rw [read_wav_file_nil] at hi
        simp at hi
      · rw [read_wav_file_nil]
        rfl
    · have hpos : 0 < data.length := List.length_pos.mpr hd
      by_cases hc : bytes_per_chunk ≤ data.length
      · have hfull : (data.take bytes_per_chunk).length = bytes_per_chunk := by
          rw [List.length_take]
          exact Nat.min_eq_left hc
        have hrw : read_wav_file data
            = data.take bytes_per_chunk
                :: read_wav_file (data.drop bytes_per_chunk) := by
          rw [read_wav_file, dif_neg hd, if_pos hfull]
        have hdroplen : (data.drop bytes_per_chunk).length
            = data.length - bytes_per_chunk := by
          rw [List.length_drop]
        have hih := ih (data.drop bytes_per_chunk) (by
          rw [hdroplen]
          rw [bytes_per_chunk_eq] at hc ⊢
          omega)
        refine ⟨?_, ?_, ?_, ?_, ?_⟩
        · intro c hcm
          rw [hrw] at hcm
          rcases List.mem_cons.mp hcm with hcm | hcm
          · rw [hcm]; exact hfull
          · exact hih.1 c hcm
        · intro hm
          have hm2 : (data.drop bytes_per_chunk).length % bytes_per_chunk = 0 := by
            rw [hdroplen]
            rw [bytes_per_chunk_eq] at hm hc ⊢
            omega
          rw [hrw, List.flatten_cons, hih.2.1 hm2, List.take_append_drop]
        · intro hm
          have hm2 : (data.drop bytes_per_chunk).length % bytes_per_chunk ≠ 0 := by
            rw [hdroplen]
            rw [bytes_per_chunk_eq] at hm hc ⊢
            omega
          have hmodeq : (data.drop bytes_per_chunk).length % bytes_per_chunk
              = data.length % bytes_per_chunk := by
            rw [hdroplen]
            rw [bytes_per_chunk_eq] at hc ⊢
            omega
          rw [hrw, List.flatten_cons, hih.2.2.1 hm2, hmodeq, ← List.append_assoc,
            List.take_append_drop]
        · intro i hi
          rw [hrw]
          cases i with
          | zero =>
            refine ⟨?_, ?_⟩
            · rw [List.getElem?_cons_zero]
              simp
            · rw [bytes_per_chunk_eq] at hc ⊢
              omega
          | succ i =>
            rw [hrw] at hi
            simp only [List.length_cons] at hi
            have hi2 : i + 1 < (read_wav_file (data.drop bytes_per_chunk)).length := by
              omega
            have hrec := hih.2.2.2.1 i hi2
            refine ⟨?_, ?_⟩
            · rw [List.getElem?_cons_succ, hrec.1, List.drop_drop]
              have harith : bytes_per_chunk + bytes_per_chunk * i
                  = bytes_per_chunk * (i + 1) := by ring
              rw [harith]
            · have := hrec.2
              rw [hdroplen] at this
              rw [bytes_per_chunk_eq] at this hc ⊢
              omega
        · rw [hrw]
          simp only [List.length_cons, hih.2.2.2.2, hdroplen]
          rw [bytes_per_chunk_eq] at hc ⊢
          omega
      · have hlt : data.length < bytes_per_chunk := Nat.lt_of_not_le hc
        have htake : data.take bytes_per_chunk = data :=
          List.take_of_length_le (Nat.le_of_lt hlt)
        have hshort : ¬ (data.take bytes_per_chunk).length = bytes_per_chunk := by
          rw [htake]
          rw [bytes_per_chunk_eq] at hlt ⊢
          omega
        have hdropnil : data.drop bytes_per_chunk = [] :=
          List.drop_eq_nil_of_le (Nat.le_of_lt hlt)
        have hrw : read_wav_file data
            = [data.take bytes_per_chunk
                ++ List.replicate
                    (bytes_per_chunk - (data.take bytes_per_chunk).length) 0] := by
          rw [read_wav_file, dif_neg hd, if_neg hshort, hdropnil, read_wav_file_nil]
        have hmod : data.length % bytes_per_chunk = data.length := Nat.mod_eq_of_lt hlt
        refine ⟨?_, ?_, ?_, ?_, ?_⟩
        · intro c hcm
          rw [hrw] at hcm
          rcases List.mem_cons.mp hcm with hcm | hcm
          · rw [hcm, List.length_append, List.length_replicate, htake]
            rw [bytes_per_chunk_eq] at hlt ⊢
            omega
          · cases hcm
        · intro hm
          rw [hmod] at hm
          exact absurd (List.eq_nil_of_length_eq_zero hm) hd
        · intro _
          rw [hrw, hmod, htake]
          simp
        · intro i hi
          rw [hrw] at hi
          simp at hi
        · rw [hrw]
          simp only [List.length_singleton]
          rw [bytes_per_chunk_eq] at hlt ⊢
          omega

/- Lemmas about a single call of `process_chunk`. -/

lemma process_chunk_err (scorer : Scorer) (st : VADProcessor) (audio_chunk : List Nat)
    (h : scoreOf scorer audio_chunk = none) :
    process_chunk scorer st audio_chunk = (st, "continue") := by
  cases hb : bytesToInt16 audio_chunk with
  | none => simp only [process_chunk, hb]
  | some s =>
    have hs : scorer (fitToChunkSize s) = none := by
      unfold scoreOf at h
      rw [hb] at h
      simpa using h
    simp only [process_chunk, hb, hs]

lemma process_chunk_ok (scorer : Scorer) (st : VADProcessor) (audio_chunk : List Nat)
    (s : List Int) (p : ℚ) (hb : bytesToInt16 audio_chunk = some s)
    (hs : scorer (fitToChunkSize s) = some p) :
    process_chunk scorer st audio_chunk =
      (if decide (p > mkRat 7 10) && !st.speech_detected then
         ({ speech_detected := true,
            accumulated_audio := st.accumulated_audio ++ [audio_chunk] }, "start")
       else if !decide (p > mkRat 7 10) && st.speech_detected then
         ({ speech_detected := false,
            accumulated_audio := st.accumulated_audio ++ [audio_chunk] }, "end")
       else
         ({ st with accumulated_audio := st.accumulated_audio ++ [audio_chunk] },
           "continue")) := by
  simp only [process_chunk, hb, hs]

lemma process_chunk_status (scorer : Scorer) (st : VADProcessor) (c : List Nat) :
    (process_chunk scorer st c).2 = "start" ∨ (process_chunk scorer st c).2 = "end" ∨
      (process_chunk scorer st c).2 = "continue" := by
  unfold process_chunk
  split
  · simp
  · split
    · simp
    · split_ifs <;> simp

lemma process_chunk_ok_acc (scorer : Scorer) (st : VADProcessor) (audio_chunk : List Nat)
    (s : List Int) (p : ℚ) (hb : bytesToInt16 audio_chunk = some s)
    (hs : scorer (fitToChunkSize s) = some p) :
    (process_chunk scorer st audio_chunk).1.accumulated_audio
      = st.accumulated_audio ++ [audio_chunk] := by
  rw [process_chunk_ok scorer st audio_chunk s p hb hs]
  split_ifs <;> rfl

lemma scoreOf_eq_some (scorer : Scorer) (c : List Nat) (q : ℚ)
    (h : scoreOf scorer c = some q) :
    ∃ s, bytesToInt16 c = some s ∧ scorer (fitToChunkSize s) = some q := by
  unfold scoreOf at h
  cases hb : bytesToInt16 c with
  | none => rw [hb] at h; cases h
  | some s => rw [hb] at h; exact ⟨s, rfl, by simpa using h⟩

lemma scoreOf_isSome_elim (scorer : Scorer) (c : List Nat)
    (h : (scoreOf scorer c).isSome = true) :
    ∃ s q, bytesToInt16 c = some s ∧ scorer (fitToChunkSize s) = some q := by
  cases hq : scoreOf scorer c with
  | none => rw [hq] at h; cases h
  | some q =>
    obtain ⟨s, hb, hs⟩ := scoreOf_eq_some scorer c q hq
    exact ⟨s, q, hb, hs⟩

lemma process_chunk_acc_cases (scorer : Scorer) (st : VADProcessor) (c : List Nat) :
    (process_chunk scorer st c).1.accumulated_audio = st.accumulated_audio ∨
      (process_chunk scorer st c).1.accumulated_audio = st.accumulated_audio ++ [c] := by
  cases hq : scoreOf scorer c with
  | none =>
    rw [process_chunk_err scorer st c hq]
    exact Or.inl rfl
  | some q =>
    obtain ⟨s, hb, hs⟩ := scoreOf_eq_some scorer c q hq
    exact Or.inr (process_chunk_ok_acc scorer st c s q hb hs)

lemma processFrames_no_end_acc (scorer : Scorer) (chunks : List (List Nat)) :
    ∀ st0 : VADProcessor,
      (∀ c ∈ chunks, (scoreOf scorer c).isSome = true) →
      (∀ r ∈ (processFrames scorer st0 chunks).2, r.event ≠ "end") →
      (processFrames scorer st0 chunks).1.accumulated_audio
        = st0.accumulated_audio ++ chunks := by
  induction chunks with
  | nil => intro st0 _ _; simp [processFrames]
  | cons c rest ih =>
    intro st0 hok hne
    obtain ⟨s, q, hb, hs⟩ :=
      scoreOf_isSome_elim scorer c (hok c (List.mem_cons_self c rest))
    have hacc := process_chunk_ok_acc scorer st0 c s q hb hs
    rcases process_chunk_status scorer st0 c with hst | hst | hst
    · have hred1 : (processFrames scorer st0 (c :: rest)).1
          = (processFrames scorer (process_chunk scorer st0 c).1 rest).1 := by
        simp [processFrames, hst]
      have hred2 : (processFrames scorer st0 (c :: rest)).2
          = { event := "start", message := "Speech detected" }
              :: (processFrames scorer (process_chunk scorer st0 c).1 rest).2 := by
        simp [processFrames, hst]
      have hne2 : ∀ r ∈ (processFrames scorer (process_chunk scorer st0 c).1 rest).2,
          r.event ≠ "end" := by
        intro r hr
        exact hne r (by rw [hred2]; exact List.mem_cons_of_mem _ hr)
      rw [hred1, ih (process_chunk scorer st0 c).1
        (fun d hd => hok d (List.mem_cons_of_mem c hd)) hne2, hacc]
      simp
    · exfalso
      have hred2 : (processFrames scorer st0 (c :: rest)).2
          = { event := "end",
              message := endMessage
                (get_accumulated_audio (process_chunk scorer st0 c).1).2.length }
              :: (processFrames scorer
                    (get_accumulated_audio (process_chunk scorer st0 c).1).1 rest).2 := by
        simp [processFrames, hst]
      exact hne _ (by rw [hred2]; exact List.mem_cons_self _ _) rfl
    · have hred1 : (processFrames scorer st0 (c :: rest)).1
          = (processFrames scorer (process_chunk scorer st0 c).1 rest).1 := by
        simp [processFrames, hst]
      have hred2 : (processFrames scorer st0 (c :: rest)).2
          = (processFrames scorer (process_chunk scorer st0 c).1 rest).2 := by
        simp [processFrames, hst]
      have hne2 : ∀ r ∈ (processFrames scorer (process_chunk scorer st0 c).1 rest).2,
          r.event ≠ "end" := by
        intro r hr
        exact hne r (by rw [hred2]; exact hr)
      rw [hred1, ih (process_chunk scorer st0 c).1
        (fun d hd => hok d (List.mem_cons_of_mem c hd)) hne2, hacc]
      simp

/-- C2: a fresh session fed the 10-frame score sequence
`[0.1, 0.1, 0.9, 0.9, 0.9, 0.2, 0.2, 0.9, 0.1, 0.1]` against threshold 0.7
emits exactly the wire events start, end, start, end, with the `start`s
fired by frames 3 and 8 and the `end`s by frames 6 and 9 (the prefix
traces pin the frame positions), and no other events; the two flushes
report 12 and 6 accumulated bytes (six and three 2-byte frames). -/
theorem claim2_scenario :
    (ProcessAudio scriptScorer servicerEmpty "client" scenarioChunks).2 =
      [ { event := "start", message := "Speech detected" },
        { event := "end", message := endMessage 12 },
        { event := "start", message := "Speech detected" },
        { event := "end", message := endMessage 6 } ] ∧
    (processFrames scriptScorer VADProcessor.init (scenarioChunks.take 2)).2.map
        VADResponse.event = [] ∧
    (processFrames scriptScorer VADProcessor.init (scenarioChunks.take 3)).2.map
        VADResponse.event = ["start"] ∧
    (processFrames scriptScorer VADProcessor.init (scenarioChunks.take 5)).2.map
        VADResponse.event = ["start"] ∧
    (processFrames scriptScorer VADProcessor.init (scenarioChunks.take 6)).2.map
        VADResponse.event = ["start", "end"] ∧
    (processFrames scriptScorer VADProcessor.init (scenarioChunks.take 7)).2.map
        VADResponse.event = ["start", "end"] ∧
    (processFrames scriptScorer VADProcessor.init (scenarioChunks.take 8)).2.map
        VADResponse.event = ["start", "end", "start"] ∧
    (processFrames scriptScorer VADProcessor.init (scenarioChunks.take 9)).2.map
        VADResponse.event = ["start", "end", "start", "end"] ∧
    (processFrames scriptScorer VADProcessor.init scenarioChunks).2.map
        VADResponse.event = ["start", "end", "start", "end"] := by
  decide

/-- C4 counterexample: after a stream for client `"c"` terminates, the
handler's terminal path does not remove the session's registry entry — the
lookup still succeeds (with the reset session), refuting the claimed
removal. -/
theorem claim4_counterexample :
    lookupEntry
        (ProcessAudio scorerHigh servicerEmpty "c" [[0, 0]]).1.client_processors "c"
      ≠ none := by
  decide

/-- C4 amended: when the inbound frame sequence of a stream terminates,
the terminal path resets the session (speaking := false, accumulator
cleared) but leaves the entry in the registry; a subsequent connection
reusing the same identity therefore finds that reset entry, i.e. a session
in SILENT with an empty accumulator. -/
theorem claim4_amended_cleanup (scorer : Scorer) (sv : VADServicer)
    (client_id : String) (requests : List (List Nat)) :
    lookupEntry (ProcessAudio scorer sv client_id requests).1.client_processors
        client_id = some VADProcessor.init := by
  by_cases h : (lookupEntry sv.client_processors client_id).isSome
  · simp only [ProcessAudio, h, if_true, if_pos, lookupEntry_setEntry_self,
      reset_eq_init]
  · have h2 : (lookupEntry (setEntry sv.client_processors client_id
        VADProcessor.init) client_id).isSome = true := by
      rw [lookupEntry_setEntry_self]; rfl
    simp [ProcessAudio, h, h2, lookupEntry_setEntry_self, setEntry_setEntry,
      reset_eq_init]

/-- C5: `ResetVAD` always answers success, resets a present session to
SILENT with an empty accumulator, is idempotent on the registry, and is a
strict no-op on the registry when the session is absent. -/
theorem claim5_reset (sv : VADServicer) (client_id : String) :
    ((ResetVAD sv client_id).2 = true) ∧
    (∀ p, lookupEntry sv.client_processors client_id = some p →
      lookupEntry (ResetVAD sv client_id).1.client_processors client_id
        = some VADProcessor.init) ∧
    ((ResetVAD (ResetVAD sv client_id).1 client_id).1 = (ResetVAD sv client_id).1) ∧
    (lookupEntry sv.client_processors client_id = none →
      (ResetVAD sv client_id).1 = sv) := by
  cases hl : lookupEntry sv.client_processors client_id with
  | none =>
    refine ⟨by simp [ResetVAD, hl], ?_, by simp [ResetVAD, hl], fun _ => by
      simp [ResetVAD, hl]⟩
    intro p hp
    simp [hl] at hp
  | some p =>
    refine ⟨by simp [ResetVAD, hl], ?_, ?_, ?_⟩
    · intro q hq
      simp [ResetVAD, hl, lookupEntry_setEntry_self, reset_eq_init]
    · simp [ResetVAD, hl, lookupEntry_setEntry_self, setEntry_setEntry,
        reset_eq_init]
    · intro h
      simp [hl] at h

/-- C5 witness: the reset facts at the concrete one-entry registry
`servicerBusy` (client `"c"` mid-speech) and at the empty registry. -/
theorem claim5_reset_witness :
    ((ResetVAD servicerBusy "c").2 = true) ∧
    (lookupEntry (ResetVAD servicerBusy "c").1.client_processors "c"
      = some VADProcessor.init) ∧
    ((ResetVAD (ResetVAD servicerBusy "c").1 "c").1 = (ResetVAD servicerBusy "c").1) ∧
    ((ResetVAD servicerEmpty "c").1 = servicerEmpty) := by
  have h1 := claim5_reset servicerBusy "c"
  have h2 := claim5_reset servicerEmpty "c"
  exact ⟨h1.1,
    h1.2.1 { speech_detected := true, accumulated_audio := [[1, 0]] } (by decide),
    h1.2.2.1, h2.2.2.2 (by decide)⟩

/-- C1: the threshold state machine of `process_chunk` on a frame scoring
probability `p` with `detected = p > 0.7`: SILENT and detected goes to
SPEAKING with `"start"`; SPEAKING and not detected goes to SILENT with
`"end"`; the two remaining cases keep the state and answer `"continue"`.
In particular a second consecutive detected frame from SILENT answers
`"continue"`, never a duplicate `"start"`. -/
theorem claim1_state_machine (scorer : Scorer) (st : VADProcessor)
    (audio_chunk : List Nat) (samples : List Int) (p : ℚ)
    (hdec : bytesToInt16 audio_chunk = some samples)
    (hsc : scorer (fitToChunkSize samples) = some p) :
    (st.speech_detected = false → p > mkRat 7 10 →
      (process_chunk scorer st audio_chunk).1.speech_detected = true ∧
      (process_chunk scorer st audio_chunk).2 = "start") ∧
    (st.speech_detected = true → ¬ p > mkRat 7 10 →
      (process_chunk scorer st audio_chunk).1.speech_detected = false ∧
      (process_chunk scorer st audio_chunk).2 = "end") ∧
    (st.speech_detected = false → ¬ p > mkRat 7 10 →
      (process_chunk scorer st audio_chunk).1.speech_detected = false ∧
      (process_chunk scorer st audio_chunk).2 = "continue") ∧
    (st.speech_detected = true → p > mkRat 7 10 →
      (process_chunk scorer st audio_chunk).1.speech_detected = true ∧
      (process_chunk scorer st audio_chunk).2 = "continue") ∧
    (st.speech_detected = false → p > mkRat 7 10 →
      ∀ (chunk2 : List Nat) (samples2 : List Int) (p2 : ℚ),
        bytesToInt16 chunk2 = some samples2 →
        scorer (fitToChunkSize samples2) = some p2 → p2 > mkRat 7 10 →
        (process_chunk scorer (process_chunk scorer st audio_chunk).1 chunk2).2
          = "continue") := by
  have hok := process_chunk_ok scorer st audio_chunk samples p hdec hsc
  refine ⟨?_, ?_, ?_, ?_, ?_⟩
  · intro hd hp
    rw [hok]
    simp [hd, hp]
  · intro hd hp
    rw [hok]
    simp [hd, hp]
  · intro hd hp
    rw [hok]
    simp [hd, hp]
  · intro hd hp
    rw [hok]
    simp [hd, hp]
  · intro hd hp chunk2 samples2 p2 hdec2 hsc2 hp2
    have h1 : (process_chunk scorer st audio_chunk).1.speech_detected = true := by
      rw [hok]
      simp [hd, hp]
    have hok2 := process_chunk_ok scorer (process_chunk scorer st audio_chunk).1
      chunk2 samples2 p2 hdec2 hsc2
    rw [hok2]
    simp [h1, hp2]

/-- C1 witness: from a fresh SILENT session, a decodable frame scoring 0.9
flips the state to SPEAKING and answers `"start"`. -/
theorem claim1_state_machine_witness :
    (process_chunk scorerHigh VADProcessor.init [0, 0]).1.speech_detected = true ∧
    (process_chunk scorerHigh VADProcessor.init [0, 0]).2 = "start" :=
  (claim1_state_machine scorerHigh VADProcessor.init [0, 0] [0] (mkRat 9 10)
    (by decide) rfl).1 rfl (by decide)

/-- C3: every successfully scored frame's raw bytes are appended to the
accumulator regardless of the resulting event; the flushed payload's byte
length is the sum of the byte lengths of the accumulated chunks; and over
any run of successfully scored frames emitting no `end`, the accumulator
grows by exactly the processed chunks, so an eventual flush covers all
frames since the session began or since the previous flush. -/
theorem claim3_accumulation (scorer : Scorer) (st : VADProcessor)
    (audio_chunk : List Nat) (h : (scoreOf scorer audio_chunk).isSome = true) :
    ((process_chunk scorer st audio_chunk).1.accumulated_audio
      = st.accumulated_audio ++ [audio_chunk]) ∧
    (∀ st2 : VADProcessor, (get_accumulated_audio st2).2.length
      = (st2.accumulated_audio.map List.length).sum) ∧
    (∀ (chunks : List (List Nat)) (st0 : VADProcessor),
      (∀ c ∈ chunks, (scoreOf scorer c).isSome = true) →
      (∀ r ∈ (processFrames scorer st0 chunks).2, r.event ≠ "end") →
      (processFrames scorer st0 chunks).1.accumulated_audio
        = st0.accumulated_audio ++ chunks) := by
  obtain ⟨s, q, hb, hs⟩ := scoreOf_isSome_elim scorer audio_chunk h
  refine ⟨process_chunk_ok_acc scorer st audio_chunk s q hb hs, ?_, ?_⟩
  · intro st2
    simp [get_accumulated_audio]
  · intro chunks st0 hok hne
    exact processFrames_no_end_acc scorer chunks st0 hok hne

/-- C3 witness: a mid-speech session appends the frame `[7, 0]`; flushing
a two-chunk accumulator reports 4 bytes; a one-frame no-end run from a
fresh session leaves exactly that frame accumulated. -/
theorem claim3_accumulation_witness :
    ((process_chunk scorerHigh
        { speech_detected := true, accumulated_audio := [[5, 5]] } [7, 0]).1.accumulated_audio
      = [[5, 5], [7, 0]]) ∧
    ((get_accumulated_audio
        { speech_detected := true, accumulated_audio := [[5, 5], [7, 0]] }).2.length = 4) ∧
    ((processFrames scorerHigh VADProcessor.init [[1, 0]]).1.accumulated_audio
      = [[1, 0]]) := by
  have h := claim3_accumulation scorerHigh
    { speech_detected := true, accumulated_audio := [[5, 5]] } [7, 0] (by decide)
  exact ⟨h.1,
    h.2.1 { speech_detected := true, accumulated_audio := [[5, 5], [7, 0]] },
    h.2.2 [[1, 0]] VADProcessor.init (by decide) (by decide)⟩

/-- C7: the outbound wire sequence is exactly the per-frame status trace
filtered to `"start"` and `"end"`, in processing order: `"continue"` is
never transmitted, each qualifying frame yields exactly one event, and
nothing else is emitted. -/
theorem claim7_wire_events (scorer : Scorer) (chunks : List (List Nat)) :
    ∀ st : VADProcessor,
      (processFrames scorer st chunks).2.map VADResponse.event
        = (statusesOf scorer st chunks).filter isWireEvent := by
  induction chunks with
  | nil => intro st; simp [processFrames, statusesOf]
  | cons c rest ih =>
    intro st
    rcases process_chunk_status scorer st c with hst | hst | hst <;>
      simp [processFrames, statusesOf, hst, isWireEvent, ih]

/-- C8: a decodable frame is never rejected: its sample list is truncated
when longer than 512 samples and zero-padded when shorter, to exactly 512
samples, and the scorer is applied to that fitted list; a scorer failure
is swallowed as a state-preserving `"continue"`, and a scorer success
yields one of the three statuses. -/
theorem claim8_fit_and_swallow (scorer : Scorer) (st : VADProcessor)
    (audio_chunk : List Nat) (samples : List Int)
    (hdec : bytesToInt16 audio_chunk = some samples) :
    ((fitToChunkSize samples).length = VAD_CHUNK_SIZE) ∧
    (samples.length > VAD_CHUNK_SIZE →
      fitToChunkSize samples = samples.take VAD_CHUNK_SIZE) ∧
    (samples.length ≤ VAD_CHUNK_SIZE →
      fitToChunkSize samples
        = samples ++ List.replicate (VAD_CHUNK_SIZE - samples.length) 0) ∧
    (scorer (fitToChunkSize samples) = none →
      process_chunk scorer st audio_chunk = (st, "continue")) ∧
    (∀ p, scorer (fitToChunkSize samples) = some p →
      (process_chunk scorer st audio_chunk).2 = "start" ∨
      (process_chunk scorer st audio_chunk).2 = "end" ∨
      (process_chunk scorer st audio_chunk).2 = "continue") := by
  refine ⟨?_, ?_, ?_, ?_, ?_⟩
  · unfold fitToChunkSize
    split_ifs with h1 h2
    · simp only [List.length_take]
      omega
    · simp only [List.length_append, List.length_replicate]
      omega
    · omega
  · intro hgt
    have hne : samples.length ≠ VAD_CHUNK_SIZE := by omega
    simp [fitToChunkSize, hne, hgt]
  · intro hle
    by_cases heq : samples.length = VAD_CHUNK_SIZE
    · simp [fitToChunkSize, heq]
    · have hgt : ¬ samples.length > VAD_CHUNK_SIZE := by omega
      simp [fitToChunkSize, heq, hgt]
  · intro hs
    refine process_chunk_err scorer st audio_chunk ?_
    unfold scoreOf
    rw [hdec]
    simpa using hs
  · intro p hp
    exact process_chunk_status scorer st audio_chunk

set_option maxRecDepth 8192 in
/-- C8 witness: the one-sample frame `[1, 0]` is padded to 512 samples,
and the always-raising scorer turns it into a state-preserving
`"continue"`; a 513-sample frame is truncated to 512. -/
theorem claim8_fit_and_swallow_witness :
    ((fitToChunkSize [1]).length = VAD_CHUNK_SIZE) ∧
    (fitToChunkSize [1] = [1] ++ List.replicate (VAD_CHUNK_SIZE - 1) 0) ∧
    (process_chunk scorerNone VADProcessor.init [1, 0]
      = (VADProcessor.init, "continue")) ∧
    (fitToChunkSize (List.replicate 513 0)
      = (List.replicate 513 (0 : Int)).take VAD_CHUNK_SIZE) := by
  have h := claim8_fit_and_swallow scorerNone VADProcessor.init [1, 0] [1] (by decide)
  have h2 := claim8_fit_and_swallow scorerNone VADProcessor.init
    (List.replicate 1026 0) (List.replicate 513 0) (by decide)
  exact ⟨h.1, h.2.2.1 (by decide), h.2.2.2.1 rfl, h2.2.1 (by decide)⟩

/-- C9: a frame whose status is `"start"` appends its bytes without any
flush: the accumulator afterwards is its previous contents plus that
frame; the handler transmits the `start` event and threads the unflushed
state into the rest of the stream; and no single frame ever shrinks the
accumulator — it is emptied only by an `end` flush or a reset. -/
theorem claim9_start_no_flush (scorer : Scorer) (st : VADProcessor)
    (audio_chunk : List Nat) (rest : List (List Nat))
    (hstart : (process_chunk scorer st audio_chunk).2 = "start") :
    ((process_chunk scorer st audio_chunk).1.accumulated_audio
      = st.accumulated_audio ++ [audio_chunk]) ∧
    (processFrames scorer st (audio_chunk :: rest)
      = ((processFrames scorer (process_chunk scorer st audio_chunk).1 rest).1,
          { event := "start", message := "Speech detected" }
            :: (processFrames scorer (process_chunk scorer st audio_chunk).1 rest).2)) ∧
    (∀ (st2 : VADProcessor) (c2 : List Nat),
      (process_chunk scorer st2 c2).1.accumulated_audio = st2.accumulated_audio ∨
      (process_chunk scorer st2 c2).1.accumulated_audio
        = st2.accumulated_audio ++ [c2]) := by
  refine ⟨?_, ?_, fun st2 c2 => process_chunk_acc_cases scorer st2 c2⟩
  · cases hq : scoreOf scorer audio_chunk with
    | none =>
      rw [process_chunk_err scorer st audio_chunk hq] at hstart
      simp at hstart
    | some q =>
      obtain ⟨s, hb, hs⟩ := scoreOf_eq_some scorer audio_chunk q hq
      exact process_chunk_ok_acc scorer st audio_chunk s q hb hs
  · simp [processFrames, hstart]

/-- C9 witness: a fresh session on the high-scoring frame `[0, 0]` emits
`start`, accumulates exactly that frame, and the handler threads the
unflushed state; the single-frame accumulator dichotomy at a concrete
undecodable frame. -/
theorem claim9_start_no_flush_witness :
    ((process_chunk scorerHigh VADProcessor.init [0, 0]).1.accumulated_audio
      = [[0, 0]]) ∧
    (processFrames scorerHigh VADProcessor.init [[0, 0]]
      = ((process_chunk scorerHigh VADProcessor.init [0, 0]).1,
          [{ event := "start", message := "Speech detected" }])) ∧
    ((process_chunk scorerHigh VADProcessor.init [1]).1.accumulated_audio = [] ∨
      (process_chunk scorerHigh VADProcessor.init [1]).1.accumulated_audio = [[1]]) := by
  have h := claim9_start_no_flush scorerHigh VADProcessor.init [0, 0] [] (by decide)
  exact ⟨h.1, h.2.1, h.2.2 VADProcessor.init [1]⟩

/-- C10: a frame whose processing raises (undecodable bytes or a scorer
failure) leaves the entire session state exactly as it was: the result is
`(st, "continue")`, so its bytes are not accumulated and the speaking flag
is unchanged, and a later `end` flush excludes it. -/
theorem claim10_error_atomic (scorer : Scorer) (st : VADProcessor)
    (audio_chunk : List Nat) (herr : scoreOf scorer audio_chunk = none) :
    (process_chunk scorer st audio_chunk = (st, "continue")) ∧
    ((process_chunk scorer st audio_chunk).1.accumulated_audio
      = st.accumulated_audio) ∧
    ((process_chunk scorer st audio_chunk).1.speech_detected
      = st.speech_detected) := by
  have h := process_chunk_err scorer st audio_chunk herr
  exact ⟨h, by rw [h], by rw [h]⟩

/-- C10 witness: a mid-speech session fed the odd-length (undecodable)
frame `[1]` is left exactly as it was, answering `"continue"`. -/
theorem claim10_error_atomic_witness :
    (process_chunk scorerHigh
        { speech_detected := true, accumulated_audio := [[2, 2]] } [1]
      = ({ speech_detected := true, accumulated_audio := [[2, 2]] }, "continue")) ∧
    ((process_chunk scorerHigh
        { speech_detected := true, accumulated_audio := [[2, 2]] } [1]).1.accumulated_audio
      = [[2, 2]]) ∧
    ((process_chunk scorerHigh
        { speech_detected := true, accumulated_audio := [[2, 2]] } [1]).1.speech_detected
      = true) :=
  claim10_error_atomic scorerHigh
    { speech_detected := true, accumulated_audio := [[2, 2]] } [1] rfl

/-- C6: the chunker emits only frames of exactly `bytes_per_chunk = 1024`
bytes; when the source length is a multiple of 1024 every frame is an
unpadded pass-through (the frames concatenate back to the source); a
non-empty short tail is emitted once, zero-padded to 1024 bytes; an empty
source yields no frame; and every frame except possibly the last is an
exact full-size slice of the source, so at most one padded frame appears,
only as the last item. The final conjunct counts the frames. -/
theorem claim6_chunker (data : List Nat) :
    (∀ c ∈ read_wav_file data, c.length = bytes_per_chunk) ∧
    (read_wav_file [] = ([] : List (List Nat))) ∧
    (data.length % bytes_per_chunk = 0 → (read_wav_file data).flatten = data) ∧
    (data.length % bytes_per_chunk ≠ 0 →
      (read_wav_file data).flatten
        = data ++ List.replicate (bytes_per_chunk - data.length % bytes_per_chunk) 0) ∧
    (∀ i : Nat, i + 1 < (read_wav_file data).length →
      (read_wav_file data)[i]?
        = some ((data.drop (bytes_per_chunk * i)).take bytes_per_chunk) ∧
      bytes_per_chunk * (i + 1) ≤ data.length) ∧
    ((read_wav_file data).length
      = (data.length + bytes_per_chunk - 1) / bytes_per_chunk) := by
  have h := read_wav_file_spec data.length data (le_refl data.length)
  exact ⟨h.1, read_wav_file_nil, h.2.1, h.2.2.1, h.2.2.2.1, h.2.2.2.2⟩

/-- C6 witness: the 3-byte source is padded to one 1024-byte frame, the
empty source yields nothing, and for the 1030-byte source the first of its
two frames is the unpadded full-size slice of the source. -/
theorem claim6_chunker_witness :
    ((read_wav_file [1, 2, 3]).flatten
      = [1, 2, 3] ++ List.replicate (bytes_per_chunk - [1, 2, 3].length % bytes_per_chunk) 0) ∧
    ((read_wav_file []).flatten = ([] : List Nat)) ∧
    ((read_wav_file (List.replicate 1030 5))[0]?
      = some (((List.replicate 1030 5).drop (bytes_per_chunk * 0)).take bytes_per_chunk)) ∧
    (bytes_per_chunk * (0 + 1) ≤ (List.replicate 1030 5).length) ∧
    ((((List.replicate 1030 5).drop (bytes_per_chunk * 0)).take bytes_per_chunk).length
      = bytes_per_chunk) := by
  have h1 := claim6_chunker [1, 2, 3]
  have h2 := claim6_chunker ([] : List Nat)
  have h3 := claim6_chunker (List.replicate 1030 5)
  have hlen : (read_wav_file (List.replicate 1030 5)).length
      = ((List.replicate 1030 5).length + bytes_per_chunk - 1) / bytes_per_chunk :=
    h3.2.2.2.2.2
  have h0 : 0 + 1 < (read_wav_file (List.replicate 1030 5)).length := by
    rw [hlen, List.length_replicate, bytes_per_chunk_eq]
    decide
  have hg := h3.2.2.2.2.1 0 h0
  exact ⟨h1.2.2.2.1 (by decide), h2.2.2.1 (by decide), hg.1, hg.2,
    h3.1 _ (List.getElem?_mem hg.1)⟩

end VAD


